import Mathlib

/-!
# gains-ai-backend: the referral ledger handlers of `src/index.js`

A shallow embedding of the request handlers of `src/index.js` and the
properties of them that the specification states.

Modelling conventions.

* A JavaScript value is a `JsVal`.  A number is an IEEE-754 binary64 value
  (`F64`), and `+` and `*` on numbers round to nearest, ties to even, as the
  source's arithmetic does.
* An arithmetic operator applied to an operand that is not a number (string
  concatenation, numeric coercion) lies outside the embedded fragment: the
  handler then yields `none` (the create handler: `none` as its response).
  Every theorem on a handler below proves a `some` result.
* The document store is a map from document ids to documents, with one list
  of purchase records per document id (the records of the `purchases`
  sub-collection, newest first; their generated ids are not represented).
  What the store's client does with a document path and with the data of a
  write is a parameter (`StoreApi`): a path it refuses and data it refuses
  make the call throw.  A transaction is executed in one piece, and the clock
  readings of one request are a single value `now`.
* `String.prototype.toUpperCase` is a parameter `toUpperCase` of the
  handlers; the theorems hold for every such function.
-/

set_option autoImplicit false
set_option maxRecDepth 8000

namespace GainsAI

/-! ## JavaScript numbers -/

/-- An IEEE-754 binary64 value: `fin neg m e` is the number
`(-1)^neg * m * 2^e`, `inf neg` an infinity and `nan` not-a-number. The
operations below return a finite value with `m` odd, or with `m = 0` and
`e = 0` (a zero, which keeps its sign), so that equal numbers are equal
terms. -/
inductive F64 where
  | fin (neg : Bool) (m : Nat) (e : Int) : F64
  | inf (neg : Bool) : F64
  | nan : F64
  deriving DecidableEq

namespace F64

/-- The number of binary digits of `n` (`fuel` bounds the recursion; `n`
itself is enough). -/
def bitLength : Nat → Nat → Nat
  | 0, _ => 0
  | fuel + 1, n => if n = 0 then 0 else bitLength fuel (n / 2) + 1

/-- The number of trailing zero bits of a positive `n`. -/
def trailingZeros : Nat → Nat → Nat
  | 0, _ => 0
  | fuel + 1, n => if n % 2 = 1 then 0 else trailingZeros fuel (n / 2) + 1

/-- The integer nearest to `n / d`, the even one of the two when `n / d`
lies halfway between them. -/
def divRoundEven (n d : Nat) : Nat :=
  let q := n / d
  let r := n % d
  if 2 * r < d then q
  else if d < 2 * r then q + 1
  else if q % 2 = 0 then q else q + 1

/-- The integer part of the binary logarithm of `n / d`, for positive `n`
and `d`. -/
def floorLog2 (n d : Nat) : Int :=
  let k : Int := (bitLength n n : Int) - (bitLength d d : Int)
  if 0 ≤ k then
    if d * 2 ^ k.toNat ≤ n then k else k - 1
  else
    if d ≤ n * 2 ^ (-k).toNat then k else k - 1

/-- The binary64 value nearest to `(-1)^neg * n / d`, ties to even: 53
significant bits, the spacing of the subnormal numbers below `2^-1022`, an
infinity from `2^1024` on. -/
def round (neg : Bool) (n d : Nat) : F64 :=
  if n = 0 then .fin neg 0 0
  else
    let e := max (floorLog2 n d) (-1022)
    let s := e - 52
    let m :=
      if 0 ≤ s then divRoundEven n (d * 2 ^ s.toNat) else divRoundEven (n * 2 ^ (-s).toNat) d
    if m = 0 then .fin neg 0 0
    else if 1024 < s + bitLength m m then .inf neg
    else
      let t := trailingZeros m m
      .fin neg (m / 2 ^ t) (s + t)

/-- The binary64 value nearest to `(-1)^neg * m * 2^e`. -/
def roundDyadic (neg : Bool) (m : Nat) (e : Int) : F64 :=
  if 0 ≤ e then round neg (m * 2 ^ e.toNat) 1 else round neg m (2 ^ (-e).toNat)

/-- The number a decimal literal of value `n / d` denotes, in the source and
in a JSON body. -/
def ofRatio (n : Int) (d : Nat) : F64 := round (decide (n < 0)) n.natAbs d

/-- The integer `(-1)^neg * m`. -/
def signed (neg : Bool) (m : Nat) : Int := if neg then -(m : Int) else (m : Int)

/-- The sum of two numbers. -/
def add : F64 → F64 → F64
  | .nan, _ => .nan
  | _, .nan => .nan
  | .inf a, .inf b => if a = b then .inf a else .nan
  | .inf a, .fin _ _ _ => .inf a
  | .fin _ _ _, .inf b => .inf b
  | .fin na ma ea, .fin nb mb eb =>
    let e := min ea eb
    let s : Int := signed na (ma * 2 ^ (ea - e).toNat) + signed nb (mb * 2 ^ (eb - e).toNat)
    if s = 0 then .fin (na && nb) 0 0
    else roundDyadic (decide (s < 0)) s.natAbs e

/-- The product of two numbers. -/
def mul : F64 → F64 → F64
  | .nan, _ => .nan
  | _, .nan => .nan
  | .inf a, .inf b => .inf (xor a b)
  | .inf a, .fin nb mb _ => if mb = 0 then .nan else .inf (xor a nb)
  | .fin na ma _, .inf b => if ma = 0 then .nan else .inf (xor na b)
  | .fin na ma ea, .fin nb mb eb => roundDyadic (xor na nb) (ma * mb) (ea + eb)

/-- The rational value of a finite number (`0` for the others). -/
def toRat : F64 → ℚ
  | .fin neg m e => (if neg then -1 else 1) * (m : ℚ) * (2 : ℚ) ^ e
  | _ => 0

/-- The number `0`. -/
def zero : F64 := .fin false 0 0

/-- The number `1`. -/
def one : F64 := .fin false 1 0

/-- The literal `0.20` of the source. -/
def pointTwo : F64 := ofRatio 20 100

/-- The test `x !== 0 && !isNaN(x)`: the number is truthy. -/
def isTruthy : F64 → Bool
  | .fin _ m _ => decide (m ≠ 0)
  | .inf _ => true
  | .nan => false

/-- The test `x >= 0`. -/
def isNonneg : F64 → Bool
  | .fin neg m _ => !neg || decide (m = 0)
  | .inf neg => !neg
  | .nan => false

/-- The test `x < k` for a natural number `k`. -/
def ltNat (x : F64) (k : Nat) : Bool :=
  match x with
  | .fin neg m e =>
    if 0 ≤ e then decide (signed neg (m * 2 ^ e.toNat) < (k : Int))
    else decide (signed neg m < (k : Int) * 2 ^ (-e).toNat)
  | .inf neg => neg
  | .nan => false

end F64

/-! ## JavaScript values -/

/-- A JavaScript value as the handlers see it: a parsed JSON value, or
`undefined`, or a store `Timestamp`, or the `Date` made from one. -/
inductive JsVal where
  | undefined : JsVal
  | null : JsVal
  | bool (b : Bool) : JsVal
  | num (x : F64) : JsVal
  | str (s : String) : JsVal
  | arr (items : List JsVal) : JsVal
  | obj (fields : List (String × JsVal)) : JsVal
  | timestamp (t : Nat) : JsVal
  | date (t : Nat) : JsVal

/-- The fields of a document or of an object literal. -/
abbrev Fields := List (String × JsVal)

/-- JavaScript truthiness (`ToBoolean`). -/
def truthy : JsVal → Bool
  | .undefined => false
  | .null => false
  | .bool b => b
  | .num x => x.isTruthy
  | .str s => decide (s ≠ "")
  | _ => true

/-- The operator `a || b`. -/
def jsOr (a b : JsVal) : JsVal := if truthy a then a else b

/-- The value of the field `k` in a list of fields, `undefined` when absent. -/
def lookupField : Fields → String → JsVal
  | [], _ => .undefined
  | (k', v) :: rest, k => if k' = k then v else lookupField rest k

/-- Property read `v?.k` (and `v.k`, `v[k]` on a `v` that is neither `null`
nor `undefined`), for the property names the source reads: none of them is a
built-in property of a string, number, boolean or array. -/
def getProp (v : JsVal) (k : String) : JsVal :=
  match v with
  | .obj fs => lookupField fs k
  | _ => .undefined

/-- The operator `a + b`, on numbers. -/
def jsAdd : JsVal → JsVal → Option JsVal
  | .num a, .num b => some (.num (a.add b))
  | _, _ => none

/-- The operator `a * b`, on numbers. -/
def jsMul : JsVal → JsVal → Option JsVal
  | .num a, .num b => some (.num (a.mul b))
  | _, _ => none

/-- Whether the object has an own property `k`. -/
def hasKey : Fields → String → Bool
  | [], _ => false
  | (k', _) :: rest, k => decide (k' = k) || hasKey rest k

mutual
/-- Whether the conversion of a value to a string, as in a template literal,
throws a `TypeError`: an object does when it has an own property `toString`
(a parsed value, so not callable: the inherited `valueOf` then returns the
object itself and no primitive is found), an array when the conversion of
one of its elements does (`join` converts every element that is not `null`
or `undefined`). -/
def toStringThrows : JsVal → Bool
  | .obj fs => hasKey fs "toString"
  | .arr items => anyToStringThrows items
  | _ => false
/-- Whether the conversion of one of the values to a string throws. -/
def anyToStringThrows : List JsVal → Bool
  | [] => false
  | v :: vs => toStringThrows v || anyToStringThrows vs
end

/-- The `length` of a JavaScript string: its number of UTF-16 code units. -/
def jsLength (s : String) : Nat :=
  (s.data.map fun c => if c.val.toNat < 65536 then 1 else 2).sum

/-- An uppercasing function on ASCII letters, used to instantiate the
`toUpperCase` parameter on concrete inputs. -/
def asciiUpper (s : String) : String := String.mk (s.data.map Char.toUpper)

/-! ## HTTP responses -/

/-- What a handler sends back. `internalError` is the `catch` branch:
status 500 with the message of the exception that was thrown. -/
inductive Response where
  | json (status : Nat) (body : Fields) : Response
  | internalError : Response

/-- The HTTP status of a response. -/
def Response.status : Response → Nat
  | .json s _ => s
  | .internalError => 500

/-! ## POST /api/perplexity: the reply text and its citations (lines 107-119) -/

/-- The content the chat handler returns for a successful gateway reply:
`content` is `data.choices[0]?.message?.content` (a string, or absent) and
`citations` is `data.citations` (an array of strings, or absent). -/
def perplexityContent (content : Option String) (citations : Option (List String)) : String :=
  let messageContent : String :=
    match content with
    | some t => if t ≠ "" then t else "No response"
    | none => "No response"
  let citations : List String := citations.getD []
  let fullResponse := messageContent
  if citations.length > 0 then
    let fullResponse := fullResponse ++ "\n\n---SOURCES---\n"
    let fullResponse := citations.foldl (fun acc citation => acc ++ (citation ++ "\n")) fullResponse
    fullResponse ++ "---END_SOURCES---"
  else
    fullResponse

/-- Stated from the specification: every citation on a line of its own. -/
def citationLines : List String → String
  | [] => ""
  | c :: cs => c ++ "\n" ++ citationLines cs

/-- Stated from the specification: the reply text, a blank line, the line
`---SOURCES---`, every citation on a line of its own, `---END_SOURCES---`. -/
def withSources (t : String) (c : List String) : String :=
  t ++ "\n" ++ "\n" ++ "---SOURCES---\n" ++ citationLines c ++ "---END_SOURCES---"

/-! ## The referral ledger -/

/-- The document store: the documents of the collection `influencer_codes`
by id, and for each id the records of its `purchases` sub-collection. -/
structure Ledger where
  docs : String → Option Fields
  purchases : String → List Fields

/-- What the handlers take from the store's client library, a parameter of
the handlers. `docId path` is the id of the document that
`collection('influencer_codes').doc(path)` refers to, `none` when the path
is refused; `accepts data` tells whether the data of a `set` or `update` is
taken. A refused path or refused data makes the call throw. -/
structure StoreApi where
  docId : String → Option String
  accepts : Fields → Bool

/-- Writes one field of a document, `DocumentReference.update` style: an
existing field is overwritten in place, a new one is added. -/
def setField (k : String) (v : JsVal) : Fields → Fields
  | [] => [(k, v)]
  | (k', v') :: rest => if k' = k then (k, v) :: rest else (k', v') :: setField k v rest

/-- The document `d` after `update(ref, upd)`: the fields of `upd` are
written, all others are kept. -/
def updateFields (d : Fields) (upd : Fields) : Fields :=
  upd.foldl (fun acc kv => setField kv.1 kv.2 acc) d

/-- The store after `set(ref, d)` on the document `id`. -/
def Ledger.setDoc (l : Ledger) (id : String) (d : Fields) : Ledger :=
  { l with docs := fun k => if k = id then some d else l.docs k }

/-- The store after a record is added under a fresh id to the `purchases`
sub-collection of the document `id`. -/
def Ledger.addPurchase (l : Ledger) (id : String) (p : Fields) : Ledger :=
  { l with purchases := fun k => if k = id then p :: l.purchases k else l.purchases k }

/-! ## POST /api/revenuecat-webhook (lines 129-223) -/

/-- A webhook delivery: the `authorization` header and the parsed body. -/
structure WebhookRequest where
  authorization : Option String
  body : JsVal

/-- The allow-list of purchase event types (lines 143-148). -/
def purchaseEvents : List String :=
  ["INITIAL_PURCHASE", "RENEWAL", "PRODUCT_CHANGE", "NON_RENEWING_PURCHASE"]

/-- The test `purchaseEvents.includes(v)`: strict equality with one of the
four strings. -/
def includesType (v : JsVal) : Bool :=
  match v with
  | .str s => decide (s ∈ purchaseEvents)
  | _ => false

/-- The referral code read from `ev = event.event` (lines 156-165). -/
def extractCode (ev : JsVal) : JsVal :=
  let subscriberAttributes := jsOr (getProp ev "subscriber_attributes") (.obj [])
  jsOr (jsOr (jsOr (jsOr (jsOr (jsOr
    (getProp (getProp subscriberAttributes "$influencerCode") "value")
    (getProp (getProp subscriberAttributes "$referralCode") "value"))
    (getProp (getProp subscriberAttributes "influencerCode") "value"))
    (getProp (getProp subscriberAttributes "referralCode") "value"))
    (getProp (getProp (getProp ev "attributes") "$influencerCode") "value"))
    (getProp (getProp (getProp ev "attributes") "$referralCode") "value"))
    (.str "")

/-- The entry the transaction creates for a code it does not find (lines
184-192). -/
def newEntry (code : String) (price : JsVal) (now : Nat) : Fields :=
  [("code", .str code),
   ("total_signups", .num F64.zero),
   ("total_purchases", .num F64.one),
   ("total_revenue", price),
   ("commission_rate", .num F64.pointTwo),
   ("created_at", .timestamp now),
   ("last_purchase_at", .timestamp now)]

/-- The fields the transaction updates on an entry it finds (lines 196-200). -/
def counterUpdate (purchases revenue : JsVal) (now : Nat) : Fields :=
  [("total_purchases", purchases),
   ("total_revenue", revenue),
   ("last_purchase_at", .timestamp now)]

/-- The purchase record the transaction adds (lines 205-212). -/
def purchaseRecord (appUserId productId price commission type : JsVal) (now : Nat) : Fields :=
  [("user_id", appUserId),
   ("product_id", productId),
   ("amount", price),
   ("commission", commission),
   ("event_type", type),
   ("created_at", .timestamp now)]

/-- How a transaction ends: its writes are applied, or a write is refused
and the transaction throws with nothing written. -/
inductive Commit where
  | done (l : Ledger) : Commit
  | refused : Commit

/-- The transaction of lines 179-213 on the document `id` for the uppercased
code `code`: create the document or update its counters, then add the
purchase record. -/
def purchaseTransaction (store : StoreApi) (now : Nat) (l : Ledger) (id code : String)
    (price productId appUserId type : JsVal) : Option Commit :=
  let written : Option (Option Ledger) :=
    match l.docs id with
    | none =>
      if store.accepts (newEntry code price now) then
        some (some (l.setDoc id (newEntry code price now)))
      else some none
    | some data =>
      match jsAdd (jsOr (lookupField data "total_purchases") (.num F64.zero)) (.num F64.one),
            jsAdd (jsOr (lookupField data "total_revenue") (.num F64.zero)) price with
      | some purchases, some revenue =>
        if store.accepts (counterUpdate purchases revenue now) then
          some (some (l.setDoc id (updateFields data (counterUpdate purchases revenue now))))
        else some none
      | _, _ => none
  match written, jsMul price (.num F64.pointTwo) with
  | some (some l1), some commission =>
    if store.accepts (purchaseRecord appUserId productId price commission type now) then
      some (.done (l1.addPurchase id
        (purchaseRecord appUserId productId price commission type now)))
    else some .refused
  | some none, some _ => some .refused
  | _, _ => none

/-- The acknowledgement `res.json` of the body `received, processed`. -/
def ack (processed : Bool) : Response :=
  .json 200 [("received", .bool true), ("processed", .bool processed)]

/-- The webhook handler. `secret` is `REVENUECAT_WEBHOOK_SECRET`, `now` the
clock reading, `db` the store (`none` when it was not initialised). The
result is the response and the store afterwards. -/
def webhookHandler (store : StoreApi) (toUpperCase : String → String) (secret : String)
    (now : Nat) (db : Option Ledger) (req : WebhookRequest) :
    Option (Response × Option Ledger) :=
  if secret ≠ "" ∧ req.authorization ≠ some ("Bearer " ++ secret) then
    some (.json 401 [("error", .str "Unauthorized")], db)
  else
    match req.body with
    | .undefined => some (.internalError, db)
    | .null => some (.internalError, db)
    | event =>
      let ev := getProp event "event"
      let type := getProp ev "type"
      if !includesType type then
        some (ack false, db)
      else
        let influencerCode := extractCode ev
        let price := jsOr (getProp ev "price") (.num F64.zero)
        let productId := jsOr (getProp ev "product_id") (.str "")
        let appUserId := jsOr (getProp ev "app_user_id") (.str "")
        -- line 173: the template literal converts the three values to strings
        if toStringThrows productId || toStringThrows price || toStringThrows influencerCode then
          some (.internalError, db)
        else
          match db with
          | some l =>
            if truthy influencerCode then
              match influencerCode with
              | .str c =>
                match store.docId (toUpperCase c) with
                | none => some (.internalError, db)
                | some id =>
                  match purchaseTransaction store now l id (toUpperCase c) price productId
                      appUserId type with
                  | some (.done l1) => some (ack true, some l1)
                  | some .refused => some (.internalError, db)
                  | none => none
              | _ => some (.internalError, db)
            else
              some (ack true, db)
          | none => some (ack true, db)

/-! ### The six probed locations, stated from the specification -/

/-- Stated from the specification: the member `k` of a map, if the value is
a map and has one. -/
def memberAt (v : JsVal) (k : String) : Option JsVal :=
  match v with
  | .obj fs => (fs.find? fun kv => kv.1 == k).map Prod.snd
  | _ => none

/-- Stated from the specification: what the payload holds at the key `key`
of its map `mapName`: the `value` of that attribute, if there is one. -/
def locationValue (ev : JsVal) (mapName key : String) : Option JsVal :=
  match memberAt ev mapName with
  | some m =>
    match memberAt m key with
    | some a => memberAt a "value"
    | none => none
  | none => none

/-- Stated from the specification: the six probed locations of a payload, in
priority order. -/
def probedLocations (ev : JsVal) : List (Option JsVal) :=
  [locationValue ev "subscriber_attributes" "$influencerCode",
   locationValue ev "subscriber_attributes" "$referralCode",
   locationValue ev "subscriber_attributes" "influencerCode",
   locationValue ev "subscriber_attributes" "referralCode",
   locationValue ev "attributes" "$influencerCode",
   locationValue ev "attributes" "$referralCode"]

/-- Stated from the specification: a location holds a non-empty value when
it holds a value other than `undefined`, `null`, `false`, a zero, `NaN` and
the empty string. -/
def holdsNonEmpty : Option JsVal → Bool
  | none => false
  | some .undefined => false
  | some .null => false
  | some (.bool b) => b
  | some (.num (.fin _ m _)) => decide (0 < m)
  | some (.num (.inf _)) => true
  | some (.num .nan) => false
  | some (.str s) => decide (0 < s.length)
  | some _ => true

/-- Stated from the specification: the value at the first location that
holds a non-empty value, the empty string when there is none. -/
def firstNonEmpty : List (Option JsVal) → JsVal
  | [] => .str ""
  | none :: rest => firstNonEmpty rest
  | some v :: rest => if holdsNonEmpty (some v) then v else firstNonEmpty rest

/-! ## GET /api/influencer/:code (lines 230-262) -/

/-- The call `v?.toDate()`: `undefined` on `null` and `undefined`, the date
of a store timestamp, and `none` when the call throws (no such method). -/
def toDate : JsVal → Option JsVal
  | .undefined => some .undefined
  | .null => some .undefined
  | .timestamp t => some (.date t)
  | _ => none

/-- The statistics handler for the route parameter `code`. It only reads the
store, so the result is the response alone. -/
def statsHandler (store : StoreApi) (toUpperCase : String → String) (db : Option Ledger)
    (code : String) : Option Response :=
  match db with
  | none => some (.json 500 [("error", .str "Database not available")])
  | some l =>
    match store.docId (toUpperCase code) with
    | none => some .internalError
    | some id =>
      match l.docs id with
      | none => some (.json 404 [("error", .str "Code not found")])
      | some data =>
        let commissionRate := jsOr (lookupField data "commission_rate") (.num F64.pointTwo)
        match jsMul (jsOr (lookupField data "total_revenue") (.num F64.zero)) commissionRate with
        | none => none
        | some totalCommission =>
          match toDate (lookupField data "created_at"),
                toDate (lookupField data "last_used_at"),
                toDate (lookupField data "last_purchase_at") with
          | some createdAt, some lastUsedAt, some lastPurchaseAt =>
            some (.json 200
              [("code", lookupField data "code"),
               ("total_signups", jsOr (lookupField data "total_signups") (.num F64.zero)),
               ("total_purchases", jsOr (lookupField data "total_purchases") (.num F64.zero)),
               ("total_revenue", jsOr (lookupField data "total_revenue") (.num F64.zero)),
               ("total_commission", totalCommission),
               ("commission_rate", commissionRate),
               ("created_at", createdAt),
               ("last_used_at", lastUsedAt),
               ("last_purchase_at", lastPurchaseAt)])
          | _, _, _ => some .internalError

/-! ## POST /api/influencer/create (lines 296-340) -/

/-- The admin key: `process.env.ADMIN_KEY || 'gainsai2024admin'`. -/
def ADMIN_KEY (envAdminKey : Option String) : String :=
  match envAdminKey with
  | some k => if k ≠ "" then k else "gainsai2024admin"
  | none => "gainsai2024admin"

/-- The test `v !== s` for a string `s`. -/
def strictNeStr (v : JsVal) (s : String) : Bool :=
  match v with
  | .str t => decide (t ≠ s)
  | _ => true

/-- The test `!code || code.length < 3` (line 306); `none` when `length` is
a field of an object that is not a number (a coercion outside the embedded
fragment). -/
def codeTooShort (code : JsVal) : Option Bool :=
  if !truthy code then some true
  else
    match code with
    | .str s => some (decide (jsLength s < 3))
    | .arr items => some (decide (items.length < 3))
    | .obj fs =>
      match lookupField fs "length" with
      | .undefined => some false
      | .num x => some (x.ltNat 3)
      | _ => none
    | _ => some false

/-- The entry the create handler writes (lines 324-333). -/
def createdEntry (codeUppercased : String) (commissionRate : JsVal) (now : Nat) : Fields :=
  [("code", .str codeUppercased),
   ("total_signups", .num F64.zero),
   ("total_purchases", .num F64.zero),
   ("total_revenue", .num F64.zero),
   ("commission_rate", jsOr commissionRate (.num F64.pointTwo)),
   ("created_at", .timestamp now),
   ("last_used_at", .null),
   ("last_purchase_at", .null)]

/-- The create-code handler. `envAdminKey` is `process.env.ADMIN_KEY`. The
result is the response (`none` where `codeTooShort` is) and the store
afterwards. -/
def createHandler (store : StoreApi) (toUpperCase : String → String)
    (envAdminKey : Option String) (now : Nat) (db : Option Ledger) (body : JsVal) :
    Option Response × Option Ledger :=
  match body with
  | .undefined => (some .internalError, db)
  | .null => (some .internalError, db)
  | body =>
    let code := getProp body "code"
    let adminKey := getProp body "adminKey"
    let commissionRate := getProp body "commissionRate"
    if strictNeStr adminKey (ADMIN_KEY envAdminKey) then
      (some (.json 401 [("error", .str "Unauthorized")]), db)
    else
      match codeTooShort code with
      | none => (none, db)
      | some true => (some (.json 400 [("error", .str "Code must be at least 3 characters")]), db)
      | some false =>
        match db with
        | none => (some (.json 500 [("error", .str "Database not available")]), db)
        | some l =>
          match code with
          | .str c =>
            let codeUppercased := toUpperCase c
            match store.docId codeUppercased with
            | none => (some .internalError, db)
            | some id =>
              match l.docs id with
              | some _ => (some (.json 400 [("error", .str "Code already exists")]), db)
              | none =>
                if store.accepts (createdEntry codeUppercased commissionRate now) then
                  (some (.json 200 [("success", .bool true), ("code", .str codeUppercased)]),
                   some (l.setDoc id (createdEntry codeUppercased commissionRate now)))
                else (some .internalError, db)
          | _ => (some .internalError, db)

/-! ## The counters invariant -/

/-- The field `k` of an entry is a number and `>= 0`. -/
def fieldNonneg (d : Fields) (k : String) : Bool :=
  match lookupField d k with
  | .num x => x.isNonneg
  | _ => false

/-- The invariant of a ledger entry: `total_purchases` and `total_revenue`
are numbers and both are `>= 0`. -/
def entryInv (d : Fields) : Bool :=
  fieldNonneg d "total_purchases" && fieldNonneg d "total_revenue"

/-- Every entry of the store satisfies `entryInv`. -/
def LedgerInv (db : Option Ledger) : Prop :=
  ∀ l, db = some l → ∀ k d, l.docs k = some d → entryInv d = true

/-- Every entry of the store has a `total_purchases` that is `>= 0`. -/
def PurchasesInv (db : Option Ledger) : Prop :=
  ∀ l, db = some l → ∀ k d, l.docs k = some d → fieldNonneg d "total_purchases" = true

/-! ## Sample data -/

/-- The segments of a path between its slashes (`cur` is the segment being
read, reversed). -/
def splitSlash : List Char → List Char → List (List Char)
  | cur, [] => [cur.reverse]
  | cur, c :: cs => if c = '/' then cur.reverse :: splitSlash [] cs else splitSlash (c :: cur) cs

/-- Whether the path contains `//`. -/
def hasDoubleSlash : List Char → Bool
  | c :: d :: cs => (decide (c = '/') && decide (d = '/')) || hasDoubleSlash (d :: cs)
  | _ => false

/-- The path rule of the store's client for `collection(name).doc(path)`:
the path is not empty and has no `//`, its segments are what stands between
the slashes (empty ones dropped), and it refers to a document when their
number is odd. -/
def clientDocId (path : String) : Option String :=
  if path = "" || hasDoubleSlash path.data then none
  else
    let segments := ((splitSlash [] path.data).filter fun s => !s.isEmpty).map String.mk
    if segments.length % 2 = 1 then some ("/".intercalate segments) else none

/-- A store client for the sample requests: the path rule `clientDocId`, and
every write taken. -/
def sampleStore : StoreApi := { docId := clientDocId, accepts := fun _ => true }

/-- The store with no document. -/
def emptyLedger : Ledger := { docs := fun _ => none, purchases := fun _ => [] }

/-- A purchase delivery of type `type` and price `price`, carrying the code
`code` under `$referralCode` and the product id `productId`. -/
def purchaseEvent (type : String) (price productId : JsVal) (code : String) : JsVal :=
  .obj [("event", .obj
    [("type", .str type),
     ("price", price),
     ("product_id", productId),
     ("subscriber_attributes", .obj [("$referralCode", .obj [("value", .str code)])])])]

/-- A sample delivery: a renewal of price `9.99` carrying the code `summer10`. -/
def sampleEvent : JsVal :=
  purchaseEvent "RENEWAL" (.num (F64.ofRatio 999 100)) (.str "gains_monthly") "summer10"

/-- The `SUMMER10` entry with the given revenue and purchase count. -/
def summerEntry (purchases revenue : F64) (lastPurchaseAt : JsVal) : Fields :=
  [("code", .str "SUMMER10"),
   ("total_signups", .num F64.zero),
   ("total_purchases", .num purchases),
   ("total_revenue", .num revenue),
   ("commission_rate", .num F64.pointTwo),
   ("created_at", .timestamp 1),
   ("last_used_at", .null),
   ("last_purchase_at", lastPurchaseAt)]

/-- A sample entry: the code `SUMMER10` as the create handler writes it. -/
def sampleEntry : Fields := summerEntry F64.zero F64.zero .null

/-- The store holding `sampleEntry` alone. -/
def sampleLedger : Ledger :=
  { docs := fun k => if k = "SUMMER10" then some sampleEntry else none, purchases := fun _ => [] }

/-- The entry `SUMMER10` after one purchase of `9.99`. -/
def purchasedEntry : Fields := summerEntry F64.one (F64.ofRatio 999 100) (.timestamp 2)

/-- The store holding `purchasedEntry` alone. -/
def purchasedLedger : Ledger :=
  { docs := fun k => if k = "SUMMER10" then some purchasedEntry else none,
    purchases := fun _ => [] }

/-- The entry `SUMMER10` after one purchase of `0.1`. -/
def tenthEntry : Fields := summerEntry F64.one (F64.ofRatio 1 10) (.timestamp 2)

/-- The store holding `tenthEntry` alone. -/
def tenthLedger : Ledger :=
  { docs := fun k => if k = "SUMMER10" then some tenthEntry else none, purchases := fun _ => [] }

/-- A purchase delivery that carries no referral code. -/
def noCodeEvent : JsVal :=
  .obj [("event", .obj [("type", .str "INITIAL_PURCHASE"), ("price", .num (F64.ofRatio 499 100))])]

/-- A purchase delivery without a referral code whose price is an object with
a `toString` property. -/
def badPriceEvent : JsVal :=
  .obj [("event", .obj
    [("type", .str "RENEWAL"), ("price", .obj [("toString", .num F64.one)])])]

/-- A create request for the code `code` with the admin key `adminKey` and the
commission rate `rate`. -/
def createRequest (code adminKey : String) (rate : JsVal) : JsVal :=
  .obj [("code", .str code), ("adminKey", .str adminKey), ("commissionRate", rate)]

/-- A create request for the two-letter code `ab` with a wrong admin key. -/
def shortCodeWrongKey : JsVal :=
  .obj [("code", .str "ab"), ("adminKey", .str "wrong")]

/-- A create request for the two-letter code `ab` with the fallback admin key. -/
def shortCodeRightKey : JsVal :=
  .obj [("code", .str "ab"), ("adminKey", .str "gainsai2024admin")]

/-- The attribute `key` holding the code `code`, on the locations from
`first` on: nothing when the location `i` comes before. -/
def slot (first i : Nat) (key code : String) : Fields :=
  if first ≤ i then [(key, .obj [("value", .str code)])] else []

/-- A payload that holds the code `c1` at the first probed location, `c2` at
the second, and so on to `c6`, on the locations from `first` on and nothing
on those before. -/
def probeEvent (first : Nat) : JsVal :=
  .obj
    [("subscriber_attributes", .obj
        (slot first 1 "$influencerCode" "c1" ++ slot first 2 "$referralCode" "c2"
          ++ slot first 3 "influencerCode" "c3" ++ slot first 4 "referralCode" "c4")),
     ("attributes", .obj
        (slot first 5 "$influencerCode" "c5" ++ slot first 6 "$referralCode" "c6"))]

/-- A payload without a `subscriber_attributes` map, holding `c6` at the
sixth location. -/
def attributesOnlyEvent : JsVal :=
  .obj [("attributes", .obj [("$referralCode", .obj [("value", .str "c6")])])]

/-- A payload whose first location holds the empty string and whose second
holds `c2`. -/
def emptyFirstEvent : JsVal :=
  .obj [("subscriber_attributes", .obj
    [("$influencerCode", .obj [("value", .str "")]),
     ("$referralCode", .obj [("value", .str "c2")])])]

/-! ## Lemmas on numbers -/

theorem F64.round_isNonneg (n d : Nat) : (F64.round false n d).isNonneg = true := by
  unfold F64.round
  simp only
  split_ifs <;> rfl

theorem F64.roundDyadic_isNonneg (m : Nat) (e : Int) :
    (F64.roundDyadic false m e).isNonneg = true := by
  unfold F64.roundDyadic
  split <;> exact F64.round_isNonneg _ _

theorem F64.signed_nonneg (neg : Bool) (m k : Nat) (h : (!neg || decide (m = 0)) = true) :
    0 ≤ F64.signed neg (m * k) := by
  cases neg
  · simp [F64.signed]
    positivity
  · simp at h
    simp [F64.signed, h]

/-- The sum of two numbers that are `>= 0` is `>= 0`. -/
theorem F64.add_isNonneg (a b : F64) (ha : a.isNonneg = true) (hb : b.isNonneg = true) :
    (a.add b).isNonneg = true := by
  cases a with
  | nan => simp [F64.isNonneg] at ha
  | inf na =>
    cases b with
    | nan => simp [F64.isNonneg] at hb
    | inf nb =>
      simp only [F64.isNonneg, Bool.not_eq_true'] at ha hb
      subst ha; subst hb
      rfl
    | fin nb mb eb =>
      simp only [F64.isNonneg, Bool.not_eq_true'] at ha
      subst ha
      rfl
  | fin na ma ea =>
    cases b with
    | nan => simp [F64.isNonneg] at hb
    | inf nb =>
      simp only [F64.isNonneg, Bool.not_eq_true'] at hb
      subst hb
      rfl
    | fin nb mb eb =>
      simp only [F64.isNonneg] at ha hb
      have h1 := F64.signed_nonneg na ma (2 ^ (ea - min ea eb).toNat) ha
      have h2 := F64.signed_nonneg nb mb (2 ^ (eb - min ea eb).toNat) hb
      simp only [F64.add]
      split
      · simp [F64.isNonneg]
      · have hs : decide (F64.signed na (ma * 2 ^ (ea - min ea eb).toNat)
            + F64.signed nb (mb * 2 ^ (eb - min ea eb).toNat) < 0) = false := by
          simp only [decide_eq_false_iff_not, not_lt]
          exact Int.add_nonneg h1 h2
        rw [hs]
        exact F64.roundDyadic_isNonneg _ _

theorem F64.one_isNonneg : F64.one.isNonneg = true := rfl

theorem F64.pointTwo_eq : F64.pointTwo = .fin false 3602879701896397 (-54) := rfl

/-! ## Lemmas on values and documents -/

theorem truthy_str (s : String) : truthy (.str s) = true ↔ s ≠ "" := by
  simp [truthy]

theorem jsOr_of_truthy {a : JsVal} (b : JsVal) (h : truthy a = true) : jsOr a b = a := by
  simp [jsOr, h]

theorem jsOr_of_falsy {a : JsVal} (b : JsVal) (h : truthy a = false) : jsOr a b = b := by
  simp [jsOr, h]

theorem jsOr_assoc (a b c : JsVal) : jsOr (jsOr a b) c = jsOr a (jsOr b c) := by
  cases ha : truthy a <;> cases hb : truthy b <;> simp [jsOr, ha, hb]

theorem getProp_of_falsy {v : JsVal} (k : String) (h : truthy v = false) :
    getProp v k = .undefined := by
  cases v <;> simp_all [truthy, getProp]

theorem getProp_empty (k : String) : getProp (.obj []) k = .undefined := by
  simp [getProp, lookupField]

theorem getProp_jsOr_empty (v : JsVal) (k : String) :
    getProp (jsOr v (.obj [])) k = getProp v k := by
  cases h : truthy v
  · rw [jsOr_of_falsy _ h, getProp_empty, getProp_of_falsy k h]
  · rw [jsOr_of_truthy _ h]

theorem lookupField_eq_find (fs : Fields) (k : String) :
    lookupField fs k = ((fs.find? fun kv => kv.1 == k).map Prod.snd).getD .undefined := by
  induction fs with
  | nil => rfl
  | cons kv rest ih =>
    obtain ⟨k0, v0⟩ := kv
    by_cases h : k0 = k
    · simp [lookupField, List.find?, h]
    · have hb : (k0 == k) = false := by simpa using h
      simp [lookupField, List.find?, h, hb, ih]

theorem getProp_eq_memberAt (v : JsVal) (k : String) :
    getProp v k = (memberAt v k).getD .undefined := by
  cases v <;> simp [getProp, memberAt, lookupField_eq_find]

theorem getProp_chain_eq_locationValue (ev : JsVal) (mapName key : String) :
    getProp (getProp (getProp ev mapName) key) "value"
      = (locationValue ev mapName key).getD .undefined := by
  unfold locationValue
  rw [getProp_eq_memberAt ev mapName]
  cases memberAt ev mapName with
  | none => rfl
  | some m =>
    simp only [Option.getD_some]
    rw [getProp_eq_memberAt m key]
    cases memberAt m key with
    | none => rfl
    | some a =>
      simp only [Option.getD_some]
      exact getProp_eq_memberAt a "value"

theorem truthy_eq_holdsNonEmpty (v : JsVal) : truthy v = holdsNonEmpty (some v) := by
  cases v with
  | num x => cases x <;> simp [truthy, holdsNonEmpty, F64.isTruthy, Nat.pos_iff_ne_zero]
  | str s =>
    simp only [truthy, holdsNonEmpty]
    congr 1
    rw [eq_iff_iff, Nat.pos_iff_ne_zero, ne_eq, ne_eq, not_iff_not]
    constructor
    · intro h; rw [h]; rfl
    · intro h
      exact String.ext (List.length_eq_zero.mp h)
  | _ => simp [truthy, holdsNonEmpty]

theorem firstNonEmpty_cons (o : Option JsVal) (rest : List (Option JsVal)) :
    firstNonEmpty (o :: rest) = jsOr (o.getD .undefined) (firstNonEmpty rest) := by
  cases o with
  | none => simp [firstNonEmpty, jsOr, truthy]
  | some v => simp [firstNonEmpty, jsOr, truthy_eq_holdsNonEmpty]

theorem extractCode_eq (ev : JsVal) : extractCode ev = firstNonEmpty (probedLocations ev) := by
  simp only [extractCode, probedLocations, getProp_jsOr_empty, jsOr_assoc, firstNonEmpty_cons,
    getProp_chain_eq_locationValue]
  rfl

theorem firstNonEmpty_of_none (os : List (Option JsVal))
    (h : ∀ o ∈ os, holdsNonEmpty o = false) : firstNonEmpty os = .str "" := by
  induction os with
  | nil => rfl
  | cons o rest ih =>
    have hrest := ih fun o' ho' => h o' (List.mem_cons_of_mem _ ho')
    have ho := h o (List.mem_cons_self _ _)
    cases o with
    | none => simpa [firstNonEmpty] using hrest
    | some v => simp [firstNonEmpty, ho, hrest]

theorem lookupField_setField (k : String) (v : JsVal) (d : Fields) (k' : String) :
    lookupField (setField k v d) k' = if k' = k then v else lookupField d k' := by
  induction d with
  | nil =>
    by_cases h : k = k'
    · simp [setField, lookupField, h]
    · have h' : ¬ k' = k := fun e => h e.symm
      simp [setField, lookupField, h, h']
  | cons kv rest ih =>
    obtain ⟨k0, v0⟩ := kv
    by_cases h0 : k0 = k
    · subst h0
      by_cases h : k0 = k'
      · simp [setField, lookupField, h]
      · have h' : ¬ k' = k0 := fun e => h e.symm
        simp [setField, lookupField, h, h']
    · by_cases h1 : k0 = k'
      · subst h1
        simp [setField, lookupField, h0]
      · simp [setField, lookupField, h0, h1, ih]

/-! ## Lemmas on the handlers -/

/-- The handler on an authenticated delivery of an allow-listed type: what
lines 155-218 do with the event. -/
theorem webhookHandler_purchase (store : StoreApi) (toUpperCase : String → String)
    (secret : String) (now : Nat) (db : Option Ledger) (req : WebhookRequest)
    (hauth : secret = "" ∨ req.authorization = some ("Bearer " ++ secret))
    (htype : includesType (getProp (getProp req.body "event") "type") = true) :
    webhookHandler store toUpperCase secret now db req =
      if toStringThrows (jsOr (getProp (getProp req.body "event") "product_id") (.str ""))
          || toStringThrows (jsOr (getProp (getProp req.body "event") "price") (.num F64.zero))
          || toStringThrows (extractCode (getProp req.body "event")) then
        some (.internalError, db)
      else
        match db with
        | some l =>
          if truthy (extractCode (getProp req.body "event")) then
            match extractCode (getProp req.body "event") with
            | .str c =>
              match store.docId (toUpperCase c) with
              | none => some (.internalError, db)
              | some id =>
                match purchaseTransaction store now l id (toUpperCase c)
                    (jsOr (getProp (getProp req.body "event") "price") (.num F64.zero))
                    (jsOr (getProp (getProp req.body "event") "product_id") (.str ""))
                    (jsOr (getProp (getProp req.body "event") "app_user_id") (.str ""))
                    (getProp (getProp req.body "event") "type") with
                | some (.done l1) => some (ack true, some l1)
                | some .refused => some (.internalError, db)
                | none => none
            | _ => some (.internalError, db)
          else some (ack true, db)
        | none => some (ack true, db) := by
  have hguard : ¬ (secret ≠ "" ∧ req.authorization ≠ some ("Bearer " ++ secret)) := by
    rcases hauth with h | h
    · simp [h]
    · simp [h]
  obtain ⟨a, body⟩ := req
  cases body <;>
    first
    | (exfalso; revert htype; simp [getProp, includesType]; done)
    | (simp only [webhookHandler, if_neg hguard]
       simp only [htype]
       rfl)

/-- A delivery that is not an authenticated one of an allow-listed type
leaves the store as it is. -/
theorem webhookHandler_skip (store : StoreApi) (toUpperCase : String → String)
    (secret : String) (now : Nat) (db : Option Ledger) (req : WebhookRequest)
    (h : ¬ ((secret = "" ∨ req.authorization = some ("Bearer " ++ secret))
          ∧ includesType (getProp (getProp req.body "event") "type") = true)) :
    ∃ resp, webhookHandler store toUpperCase secret now db req = some (resp, db) := by
  by_cases hguard : secret ≠ "" ∧ req.authorization ≠ some ("Bearer " ++ secret)
  · exact ⟨.json 401 [("error", .str "Unauthorized")],
      by simp only [webhookHandler, if_pos hguard]⟩
  · have hauth : secret = "" ∨ req.authorization = some ("Bearer " ++ secret) := by
      by_cases hs : secret = ""
      · exact Or.inl hs
      · by_cases ha : req.authorization = some ("Bearer " ++ secret)
        · exact Or.inr ha
        · exact absurd ⟨hs, ha⟩ hguard
    have htype : includesType (getProp (getProp req.body "event") "type") = false := by
      cases ht : includesType (getProp (getProp req.body "event") "type")
      · rfl
      · exact absurd ⟨hauth, ht⟩ h
    obtain ⟨a, body⟩ := req
    change includesType (getProp (getProp body "event") "type") = false at htype
    cases body <;>
      first
      | (refine ⟨.internalError, ?_⟩
         simp only [webhookHandler, if_neg hguard]
         done)
      | (refine ⟨ack false, ?_⟩
         simp only [webhookHandler, if_neg hguard]
         simp only [htype]
         rfl)

/-- The transaction on a document that exists, for a numeric price and
numeric counters: the two writes are applied when the store takes both. -/
theorem purchaseTransaction_existing (store : StoreApi) (now : Nat) (l : Ledger)
    (id code : String) (P n r : F64) (productId appUserId type : JsVal) (data : Fields)
    (hdoc : l.docs id = some data)
    (hn : jsOr (lookupField data "total_purchases") (.num F64.zero) = .num n)
    (hr : jsOr (lookupField data "total_revenue") (.num F64.zero) = .num r) :
    purchaseTransaction store now l id code (.num P) productId appUserId type =
      some (if store.accepts (counterUpdate (.num (n.add F64.one)) (.num (r.add P)) now)
            && store.accepts (purchaseRecord appUserId productId (.num P)
                (.num (P.mul F64.pointTwo)) type now) then
          .done ((l.setDoc id (updateFields data
              (counterUpdate (.num (n.add F64.one)) (.num (r.add P)) now))).addPurchase id
            (purchaseRecord appUserId productId (.num P) (.num (P.mul F64.pointTwo)) type now))
        else .refused) := by
  simp only [purchaseTransaction, hdoc, hn, hr, jsAdd, jsMul]
  cases h1 : store.accepts (counterUpdate (.num (n.add F64.one)) (.num (r.add P)) now) <;>
    cases h2 : store.accepts (purchaseRecord appUserId productId (.num P)
      (.num (P.mul F64.pointTwo)) type now) <;> simp [h1, h2]

/-- The transaction on a document that does not exist, for a numeric price. -/
theorem purchaseTransaction_new (store : StoreApi) (now : Nat) (l : Ledger) (id code : String)
    (P : F64) (productId appUserId type : JsVal) (hdoc : l.docs id = none) :
    purchaseTransaction store now l id code (.num P) productId appUserId type =
      some (if store.accepts (newEntry code (.num P) now)
            && store.accepts (purchaseRecord appUserId productId (.num P)
                (.num (P.mul F64.pointTwo)) type now) then
          .done ((l.setDoc id (newEntry code (.num P) now)).addPurchase id
            (purchaseRecord appUserId productId (.num P) (.num (P.mul F64.pointTwo)) type now))
        else .refused) := by
  simp only [purchaseTransaction, hdoc, jsMul]
  cases h1 : store.accepts (newEntry code (.num P) now) <;>
    cases h2 : store.accepts (purchaseRecord appUserId productId (.num P)
      (.num (P.mul F64.pointTwo)) type now) <;> simp [h1, h2]

theorem fieldNonneg_of_lookup (d : Fields) (k : String) (x : F64)
    (h : lookupField d k = .num x) (hx : x.isNonneg = true) : fieldNonneg d k = true := by
  simp [fieldNonneg, h, hx]

theorem lookup_of_fieldNonneg (d : Fields) (k : String) (h : fieldNonneg d k = true) :
    ∃ x : F64, lookupField d k = .num x ∧ x.isNonneg = true := by
  unfold fieldNonneg at h
  split at h
  · next x hx => exact ⟨x, hx, h⟩
  · exact absurd h (by simp)

/-- A counter that is `>= 0` is read by `counter || 0` as a number `>= 0`. -/
theorem jsOr_zero_of_fieldNonneg (d : Fields) (k : String) (h : fieldNonneg d k = true) :
    ∃ x : F64, jsOr (lookupField d k) (.num F64.zero) = .num x ∧ x.isNonneg = true := by
  obtain ⟨x, hx, hx0⟩ := lookup_of_fieldNonneg d k h
  cases ht : truthy (lookupField d k)
  · exact ⟨F64.zero, jsOr_of_falsy _ ht, rfl⟩
  · exact ⟨x, by rw [jsOr_of_truthy _ ht, hx], hx0⟩

theorem PurchasesInv_of_LedgerInv (db : Option Ledger) (h : LedgerInv db) : PurchasesInv db := by
  intro l hl k d hk
  have := h l hl k d hk
  simp only [entryInv, Bool.and_eq_true] at this
  exact this.1

/-- Writing a document that satisfies the invariant keeps the invariant of
the store. -/
theorem LedgerInv_setDoc (l : Ledger) (id : String) (d : Fields)
    (hinv : LedgerInv (some l)) (hd : entryInv d = true) :
    LedgerInv (some (l.setDoc id d)) := by
  intro l' hl' k d' hk
  cases hl'
  by_cases h : k = id
  · simp [Ledger.setDoc, h] at hk
    rw [← hk]; exact hd
  · simp [Ledger.setDoc, h] at hk
    exact hinv l rfl k d' hk

theorem PurchasesInv_setDoc (l : Ledger) (id : String) (d : Fields)
    (hinv : PurchasesInv (some l)) (hd : fieldNonneg d "total_purchases" = true) :
    PurchasesInv (some (l.setDoc id d)) := by
  intro l' hl' k d' hk
  cases hl'
  by_cases h : k = id
  · simp [Ledger.setDoc, h] at hk
    rw [← hk]; exact hd
  · simp [Ledger.setDoc, h] at hk
    exact hinv l rfl k d' hk

theorem LedgerInv_addPurchase (l : Ledger) (id : String) (p : Fields)
    (hinv : LedgerInv (some l)) : LedgerInv (some (l.addPurchase id p)) := by
  intro l' hl' k d' hk
  cases hl'
  exact hinv l rfl k d' hk

theorem PurchasesInv_addPurchase (l : Ledger) (id : String) (p : Fields)
    (hinv : PurchasesInv (some l)) : PurchasesInv (some (l.addPurchase id p)) := by
  intro l' hl' k d' hk
  cases hl'
  exact hinv l rfl k d' hk

/-- The webhook handler answers every delivery of a numeric price on a store
that satisfies the invariant; afterwards every `total_purchases` is `>= 0`,
and the whole invariant holds when the price is `>= 0`. -/
theorem webhookHandler_inv (store : StoreApi) (toUpperCase : String → String)
    (secret : String) (now : Nat) (db : Option Ledger) (req : WebhookRequest) (P : F64)
    (hinv : LedgerInv db)
    (hprice : jsOr (getProp (getProp req.body "event") "price") (.num F64.zero) = .num P) :
    ∃ resp db', webhookHandler store toUpperCase secret now db req = some (resp, db')
      ∧ PurchasesInv db' ∧ (P.isNonneg = true → LedgerInv db') := by
  have hsame : ∀ resp, webhookHandler store toUpperCase secret now db req = some (resp, db) →
      ∃ resp db', webhookHandler store toUpperCase secret now db req = some (resp, db')
        ∧ PurchasesInv db' ∧ (P.isNonneg = true → LedgerInv db') :=
    fun resp h => ⟨resp, db, h, PurchasesInv_of_LedgerInv db hinv, fun _ => hinv⟩
  by_cases hp : (secret = "" ∨ req.authorization = some ("Bearer " ++ secret))
      ∧ includesType (getProp (getProp req.body "event") "type") = true
  · have hrun := webhookHandler_purchase store toUpperCase secret now db req hp.1 hp.2
    rw [hprice] at hrun
    split at hrun
    · exact hsame _ hrun
    · cases db with
      | none => exact hsame _ hrun
      | some l =>
        cases htr : truthy (extractCode (getProp req.body "event")) with
        | false =>
          rw [htr] at hrun
          exact hsame _ hrun
        | true =>
          rw [htr] at hrun
          simp only [if_true] at hrun
          cases hcode : extractCode (getProp req.body "event") with
          | str c =>
            rw [hcode] at hrun
            simp only at hrun
            cases hid : store.docId (toUpperCase c) with
            | none =>
              rw [hid] at hrun
              exact hsame _ hrun
            | some id =>
              rw [hid] at hrun
              simp only at hrun
              cases hdoc : l.docs id with
              | none =>
                rw [purchaseTransaction_new store now l id (toUpperCase c) P _ _ _ hdoc] at hrun
                split at hrun
                · rename_i _ l1 heq
                  simp only [Option.some.injEq] at heq
                  split at heq
                  · cases heq
                    refine ⟨_, _, hrun, ?_, ?_⟩
                    · apply PurchasesInv_addPurchase
                      apply PurchasesInv_setDoc _ _ _ (PurchasesInv_of_LedgerInv _ hinv)
                      exact fieldNonneg_of_lookup _ _ F64.one (by simp [newEntry, lookupField])
                        F64.one_isNonneg
                    · intro hP
                      apply LedgerInv_addPurchase
                      apply LedgerInv_setDoc _ _ _ hinv
                      simp only [entryInv, Bool.and_eq_true]
                      exact ⟨fieldNonneg_of_lookup _ _ F64.one (by simp [newEntry, lookupField])
                          F64.one_isNonneg,
                        fieldNonneg_of_lookup _ _ P (by simp [newEntry, lookupField]) hP⟩
                  · cases heq
                · exact hsame _ hrun
                · rename_i heq
                  simp at heq
              | some data =>
                have hd := hinv l rfl id data hdoc
                simp only [entryInv, Bool.and_eq_true] at hd
                obtain ⟨n, hn, hn0⟩ := jsOr_zero_of_fieldNonneg data "total_purchases" hd.1
                obtain ⟨r, hr, hr0⟩ := jsOr_zero_of_fieldNonneg data "total_revenue" hd.2
                rw [purchaseTransaction_existing store now l id (toUpperCase c) P n r _ _ _ data
                  hdoc hn hr] at hrun
                have hpur : fieldNonneg (updateFields data
                    (counterUpdate (.num (n.add F64.one)) (.num (r.add P)) now))
                    "total_purchases" = true :=
                  fieldNonneg_of_lookup _ _ (n.add F64.one)
                    (by simp [updateFields, counterUpdate, lookupField_setField])
                    (F64.add_isNonneg n F64.one hn0 F64.one_isNonneg)
                split at hrun
                · rename_i _ l1 heq
                  simp only [Option.some.injEq] at heq
                  split at heq
                  · cases heq
                    refine ⟨_, _, hrun, ?_, ?_⟩
                    · apply PurchasesInv_addPurchase
                      exact PurchasesInv_setDoc _ _ _ (PurchasesInv_of_LedgerInv _ hinv) hpur
                    · intro hP
                      apply LedgerInv_addPurchase
                      apply LedgerInv_setDoc _ _ _ hinv
                      simp only [entryInv, Bool.and_eq_true]
                      exact ⟨hpur, fieldNonneg_of_lookup _ _ (r.add P)
                        (by simp [updateFields, counterUpdate, lookupField_setField])
                        (F64.add_isNonneg r P hr0 hP)⟩
                  · cases heq
                · exact hsame _ hrun
                · rename_i heq
                  simp at heq
          | undefined => rw [hcode] at hrun; exact hsame _ hrun
          | null => rw [hcode] at hrun; exact hsame _ hrun
          | bool b => rw [hcode] at hrun; exact hsame _ hrun
          | num x => rw [hcode] at hrun; exact hsame _ hrun
          | arr x => rw [hcode] at hrun; exact hsame _ hrun
          | obj x => rw [hcode] at hrun; exact hsame _ hrun
          | timestamp x => rw [hcode] at hrun; exact hsame _ hrun
          | date x => rw [hcode] at hrun; exact hsame _ hrun
  · obtain ⟨resp, h⟩ := webhookHandler_skip store toUpperCase secret now db req hp
    exact hsame resp h

/-- The store after a create request is the store before, or the store
before with the new entry written. -/
theorem createHandler_store (store : StoreApi) (toUpperCase : String → String)
    (envAdminKey : Option String) (now : Nat) (db : Option Ledger) (body : JsVal) :
    (createHandler store toUpperCase envAdminKey now db body).2 = db
    ∨ ∃ l c id, db = some l ∧ getProp body "code" = .str c
        ∧ (createHandler store toUpperCase envAdminKey now db body).2 =
          some (l.setDoc id
            (createdEntry (toUpperCase c) (getProp body "commissionRate") now)) := by
  unfold createHandler
  split
  · exact Or.inl rfl
  · exact Or.inl rfl
  · simp only
    split
    · exact Or.inl rfl
    · split
      · exact Or.inl rfl
      · exact Or.inl rfl
      · split
        · exact Or.inl rfl
        · split
          · next l c hc =>
            split
            · exact Or.inl rfl
            · next id _ =>
              split
              · exact Or.inl rfl
              · split
                · exact Or.inr ⟨_, c, id, rfl, hc, rfl⟩
                · exact Or.inl rfl
          · exact Or.inl rfl

/-- The create handler keeps the counters invariant. -/
theorem createHandler_inv (store : StoreApi) (toUpperCase : String → String)
    (envAdminKey : Option String) (now : Nat) (db : Option Ledger) (body : JsVal)
    (hinv : LedgerInv db) :
    LedgerInv (createHandler store toUpperCase envAdminKey now db body).2 := by
  rcases createHandler_store store toUpperCase envAdminKey now db body with
    h | ⟨l, c, id, hdb, _, h⟩
  · rw [h]; exact hinv
  · rw [h]
    subst hdb
    apply LedgerInv_setDoc _ _ _ hinv
    simp [entryInv, fieldNonneg, createdEntry, lookupField, F64.zero, F64.isNonneg]

theorem jsLength_empty : jsLength "" = 0 := rfl

theorem codeTooShort_str (s : String) : codeTooShort (.str s) = some (decide (jsLength s < 3)) := by
  by_cases hs : s = ""
  · subst hs
    simp [codeTooShort, truthy, jsLength_empty]
  · simp [codeTooShort, truthy, hs]

/-- A property of the body that is a string makes the body an object. -/
theorem body_obj_of_getProp {body : JsVal} {k s : String} (h : getProp body k = .str s) :
    ∃ fs, body = .obj fs := by
  cases body <;> first | exact ⟨_, rfl⟩ | (simp [getProp] at h)

theorem citations_foldl (cs : List String) (init : String) :
    cs.foldl (fun acc citation => acc ++ (citation ++ "\n")) init = init ++ citationLines cs := by
  induction cs generalizing init with
  | nil => simp [citationLines]
  | cons c cs ih => simp [List.foldl, ih, citationLines, String.append_assoc]

theorem sampleLedger_inv : LedgerInv (some sampleLedger) := by
  intro l hl k d hk
  cases hl
  by_cases h : k = "SUMMER10"
  · simp [sampleLedger, h] at hk
    rw [← hk]
    rfl
  · simp [sampleLedger, h] at hk

theorem F64.mul_comm (a b : F64) : a.mul b = b.mul a := by
  cases a <;> cases b <;> simp [F64.mul, Nat.mul_comm, Int.add_comm, Bool.xor_comm]

theorem F64.ofRatio_tenth : F64.ofRatio 1 10 = .fin false 3602879701896397 (-55) := rfl

theorem F64.ofRatio_fifth : F64.ofRatio 2 10 = .fin false 3602879701896397 (-54) := rfl

theorem F64.ofRatio_price : F64.ofRatio 999 100 = .fin false 5623870034678907 (-49) := rfl

/-- The sum `0.1 + 0.2` is the number written `0.30000000000000004`. -/
theorem F64.add_tenth_fifth :
    (F64.ofRatio 1 10).add (F64.ofRatio 2 10)
      = F64.ofRatio 30000000000000004 100000000000000000 := by decide

/-- The product `9.99 * 0.20` is the number written `1.9980000000000002`. -/
theorem F64.mul_price_pointTwo :
    (F64.ofRatio 999 100).mul F64.pointTwo
      = F64.ofRatio 19980000000000002 10000000000000000 := by decide

/-- The sum `2^53 + 1` is `2^53`. -/
theorem F64.add_one_large :
    (F64.ofRatio 9007199254740992 1).add F64.one = F64.ofRatio 9007199254740992 1 := by
  decide

/-- Adding `1` to `0` gives `1`, and adding `9.99` to `0` gives `9.99`. -/
theorem F64.add_zero_samples :
    F64.zero.add F64.one = F64.one
    ∧ F64.zero.add (F64.ofRatio 999 100) = F64.ofRatio 999 100 := by decide

/-! ## Claims -/

/-- C1, as the code has it: an authenticated delivery of an allow-listed type
that carries the referral code `c`, whose uppercased form has a ledger entry
(counters `n` and `r`, read as `0` when missing), whose price is the number
`P` and whose product id converts to a string, with a store that takes the
two writes, is processed: afterwards the entry has `total_purchases` the
double-precision sum `n + 1` and `total_revenue` the double-precision sum
`r + P`, its `commission_rate` and `total_signups` are as before, and the
purchase records under the code are the former ones and one new record, of
amount `P` and commission the double-precision product `0.20 * P`. -/
theorem webhook_known_code (store : StoreApi) (toUpperCase : String → String)
    (secret : String) (now : Nat) (l : Ledger) (req : WebhookRequest) (c id : String)
    (P n r : F64) (data : Fields)
    (hauth : secret = "" ∨ req.authorization = some ("Bearer " ++ secret))
    (htype : includesType (getProp (getProp req.body "event") "type") = true)
    (hcode : extractCode (getProp req.body "event") = .str c) (hc : c ≠ "")
    (hprice : jsOr (getProp (getProp req.body "event") "price") (.num F64.zero) = .num P)
    (hproduct : toStringThrows
      (jsOr (getProp (getProp req.body "event") "product_id") (.str "")) = false)
    (hid : store.docId (toUpperCase c) = some id)
    (hdoc : l.docs id = some data)
    (hn : jsOr (lookupField data "total_purchases") (.num F64.zero) = .num n)
    (hr : jsOr (lookupField data "total_revenue") (.num F64.zero) = .num r)
    (hupdate : store.accepts
      (counterUpdate (.num (n.add F64.one)) (.num (r.add P)) now) = true)
    (hrecord : store.accepts
      (purchaseRecord (jsOr (getProp (getProp req.body "event") "app_user_id") (.str ""))
        (jsOr (getProp (getProp req.body "event") "product_id") (.str "")) (.num P)
        (.num (P.mul F64.pointTwo)) (getProp (getProp req.body "event") "type") now) = true) :
    ∃ (l' : Ledger) (data' record : Fields),
      webhookHandler store toUpperCase secret now (some l) req = some (ack true, some l')
      ∧ l'.docs id = some data'
      ∧ lookupField data' "total_purchases" = .num (n.add F64.one)
      ∧ lookupField data' "total_revenue" = .num (r.add P)
      ∧ lookupField data' "commission_rate" = lookupField data "commission_rate"
      ∧ lookupField data' "total_signups" = lookupField data "total_signups"
      ∧ l'.purchases id = record :: l.purchases id
      ∧ lookupField record "amount" = .num P
      ∧ lookupField record "commission" = .num (F64.pointTwo.mul P) := by
  have htr : truthy (extractCode (getProp req.body "event")) = true := by
    rw [hcode]; exact (truthy_str c).mpr hc
  refine ⟨(l.setDoc id (updateFields data
        (counterUpdate (.num (n.add F64.one)) (.num (r.add P)) now))).addPurchase id
      (purchaseRecord (jsOr (getProp (getProp req.body "event") "app_user_id") (.str ""))
        (jsOr (getProp (getProp req.body "event") "product_id") (.str "")) (.num P)
        (.num (P.mul F64.pointTwo)) (getProp (getProp req.body "event") "type") now),
    updateFields data (counterUpdate (.num (n.add F64.one)) (.num (r.add P)) now),
    purchaseRecord (jsOr (getProp (getProp req.body "event") "app_user_id") (.str ""))
      (jsOr (getProp (getProp req.body "event") "product_id") (.str "")) (.num P)
      (.num (P.mul F64.pointTwo)) (getProp (getProp req.body "event") "type") now,
    ?_, ?_, ?_, ?_, ?_, ?_, ?_, ?_, ?_⟩
  · rw [webhookHandler_purchase store toUpperCase secret now (some l) req hauth htype]
    simp only [hprice, hproduct, hcode, toStringThrows, Bool.or_self, Bool.false_eq_true,
      if_false, (truthy_str c).mpr hc, if_true, hid]
    rw [purchaseTransaction_existing store now l id (toUpperCase c) P n r _ _ _ data hdoc hn hr]
    simp [hupdate, hrecord]
  · simp [Ledger.setDoc, Ledger.addPurchase]
  · simp [updateFields, counterUpdate, lookupField_setField]
  · simp [updateFields, counterUpdate, lookupField_setField]
  · simp [updateFields, counterUpdate, lookupField_setField]
  · simp [updateFields, counterUpdate, lookupField_setField]
  · simp [Ledger.setDoc, Ledger.addPurchase]
  · simp [purchaseRecord, lookupField]
  · simp [purchaseRecord, lookupField, F64.mul_comm]

/-- The renewal `sampleEvent` delivered to `sampleLedger`: an instance of C1
as the code has it. -/
theorem webhook_known_code_witness :
    includesType (getProp (getProp sampleEvent "event") "type") = true
    ∧ extractCode (getProp sampleEvent "event") = .str "summer10"
    ∧ sampleStore.docId (asciiUpper "summer10") = some "SUMMER10"
    ∧ sampleLedger.docs "SUMMER10" = some sampleEntry
    ∧ ∃ (l' : Ledger) (data' record : Fields),
      webhookHandler sampleStore asciiUpper "" 7 (some sampleLedger) ⟨none, sampleEvent⟩
        = some (ack true, some l')
      ∧ l'.docs "SUMMER10" = some data'
      ∧ lookupField data' "total_purchases" = .num (F64.zero.add F64.one)
      ∧ lookupField data' "total_revenue" = .num (F64.zero.add (F64.ofRatio 999 100))
      ∧ lookupField data' "commission_rate" = lookupField sampleEntry "commission_rate"
      ∧ lookupField data' "total_signups" = lookupField sampleEntry "total_signups"
      ∧ l'.purchases "SUMMER10" = record :: sampleLedger.purchases "SUMMER10"
      ∧ lookupField record "amount" = .num (F64.ofRatio 999 100)
      ∧ lookupField record "commission" = .num (F64.pointTwo.mul (F64.ofRatio 999 100)) :=
  ⟨rfl, rfl, rfl, rfl,
   webhook_known_code sampleStore asciiUpper "" 7 sampleLedger ⟨none, sampleEvent⟩ "summer10"
     "SUMMER10" (F64.ofRatio 999 100) F64.zero F64.zero sampleEntry (Or.inl rfl) rfl rfl
     (by decide) rfl rfl rfl rfl rfl rfl rfl rfl⟩

/-- C1 as stated fails. On `sampleLedger`, a renewal of price `9.99` with the
code `summer10` whose product id is an object with a `toString` property is
answered 500 and nothing is written. On `tenthLedger`, where `SUMMER10` has
revenue `0.1`, a renewal of price `0.2` stores the revenue
`0.30000000000000004`, which is not the stored revenue plus the price. -/
theorem webhook_known_code_counterexample :
    (webhookHandler sampleStore asciiUpper "" 7 (some sampleLedger)
        ⟨none, purchaseEvent "RENEWAL" (.num (F64.ofRatio 999 100))
          (.obj [("toString", .num F64.one)]) "summer10"⟩
      = some (.internalError, some sampleLedger))
    ∧ ∃ (l' : Ledger) (data' : Fields),
        webhookHandler sampleStore asciiUpper "" 7 (some tenthLedger)
          ⟨none, purchaseEvent "RENEWAL" (.num (F64.ofRatio 2 10)) (.str "gains_monthly")
            "summer10"⟩
          = some (ack true, some l')
        ∧ lookupField tenthEntry "total_revenue" = .num (F64.ofRatio 1 10)
        ∧ l'.docs "SUMMER10" = some data'
        ∧ lookupField data' "total_revenue" = .num (.fin false 1351079888211149 (-52))
        ∧ (F64.fin false 1351079888211149 (-52)).toRat
            ≠ (F64.ofRatio 1 10).toRat + (F64.ofRatio 2 10).toRat := by
  refine ⟨rfl,
    (tenthLedger.setDoc "SUMMER10" (updateFields tenthEntry
        (counterUpdate (.num (F64.one.add F64.one))
          (.num ((F64.ofRatio 1 10).add (F64.ofRatio 2 10))) 7))).addPurchase "SUMMER10"
      (purchaseRecord (.str "") (.str "gains_monthly") (.num (F64.ofRatio 2 10))
        (.num ((F64.ofRatio 2 10).mul F64.pointTwo)) (.str "RENEWAL") 7),
    updateFields tenthEntry
        (counterUpdate (.num (F64.one.add F64.one))
          (.num ((F64.ofRatio 1 10).add (F64.ofRatio 2 10))) 7),
    rfl, rfl, rfl, rfl, ?_⟩
  rw [F64.ofRatio_tenth, F64.ofRatio_fifth]
  norm_num [F64.toRat]

/-- C2, as the code has it: an authenticated delivery of an allow-listed
type with no non-empty value at any of the six probed locations leaves the
store unchanged, and when its price and product id convert to strings it is
answered with status 200, `received: true` and `processed: true`. -/
theorem webhook_no_code (store : StoreApi) (toUpperCase : String → String) (secret : String)
    (now : Nat) (db : Option Ledger) (req : WebhookRequest)
    (hauth : secret = "" ∨ req.authorization = some ("Bearer " ++ secret))
    (htype : includesType (getProp (getProp req.body "event") "type") = true)
    (hnone : ∀ o ∈ probedLocations (getProp req.body "event"), holdsNonEmpty o = false) :
    ∃ resp : Response,
      webhookHandler store toUpperCase secret now db req = some (resp, db)
      ∧ (toStringThrows (jsOr (getProp (getProp req.body "event") "product_id") (.str ""))
            = false →
          toStringThrows (jsOr (getProp (getProp req.body "event") "price") (.num F64.zero))
            = false →
          resp = .json 200 [("received", .bool true), ("processed", .bool true)]) := by
  have hcode : extractCode (getProp req.body "event") = .str "" := by
    rw [extractCode_eq]; exact firstNonEmpty_of_none _ hnone
  rw [webhookHandler_purchase store toUpperCase secret now db req hauth htype, hcode]
  simp only [toStringThrows, Bool.or_false]
  split
  · rename_i hthrow
    refine ⟨.internalError, rfl, ?_⟩
    intro h1 h2
    simp [h1, h2] at hthrow
  · refine ⟨.json 200 [("received", .bool true), ("processed", .bool true)], ?_, fun _ _ => rfl⟩
    cases db <;> simp [truthy, ack]

/-- The delivery `noCodeEvent` to `sampleLedger`: an instance of C2 as the
code has it. -/
theorem webhook_no_code_witness :
    includesType (getProp (getProp noCodeEvent "event") "type") = true
    ∧ (∀ o ∈ probedLocations (getProp noCodeEvent "event"), holdsNonEmpty o = false)
    ∧ ∃ resp : Response,
      webhookHandler sampleStore asciiUpper "" 7 (some sampleLedger) ⟨none, noCodeEvent⟩
        = some (resp, some sampleLedger)
      ∧ (toStringThrows (jsOr (getProp (getProp noCodeEvent "event") "product_id") (.str ""))
            = false →
          toStringThrows (jsOr (getProp (getProp noCodeEvent "event") "price") (.num F64.zero))
            = false →
          resp = .json 200 [("received", .bool true), ("processed", .bool true)]) :=
  ⟨rfl, by decide,
   webhook_no_code sampleStore asciiUpper "" 7 (some sampleLedger) ⟨none, noCodeEvent⟩
     (Or.inl rfl) rfl (by decide)⟩

/-- C2 as stated fails: the delivery `noCodeEvent`, of an allow-listed type
and without a referral code, is answered with `processed: true`, not with
`processed: false`; and the delivery `badPriceEvent`, whose price is an
object with a `toString` property, is answered with status 500. -/
theorem webhook_no_code_counterexample :
    includesType (getProp (getProp noCodeEvent "event") "type") = true
    ∧ (∀ o ∈ probedLocations (getProp noCodeEvent "event"), holdsNonEmpty o = false)
    ∧ webhookHandler sampleStore asciiUpper "" 7 (some sampleLedger) ⟨none, noCodeEvent⟩
        = some (.json 200 [("received", .bool true), ("processed", .bool true)],
            some sampleLedger)
    ∧ (¬ ∃ db', webhookHandler sampleStore asciiUpper "" 7 (some sampleLedger)
          ⟨none, noCodeEvent⟩
        = some (.json 200 [("received", .bool true), ("processed", .bool false)], db'))
    ∧ includesType (getProp (getProp badPriceEvent "event") "type") = true
    ∧ (∀ o ∈ probedLocations (getProp badPriceEvent "event"), holdsNonEmpty o = false)
    ∧ webhookHandler sampleStore asciiUpper "" 7 (some sampleLedger) ⟨none, badPriceEvent⟩
        = some (.internalError, some sampleLedger) := by
  have hrun : webhookHandler sampleStore asciiUpper "" 7 (some sampleLedger) ⟨none, noCodeEvent⟩
      = some (.json 200 [("received", .bool true), ("processed", .bool true)],
          some sampleLedger) := rfl
  refine ⟨rfl, by decide, hrun, ?_, rfl, by decide, rfl⟩
  rintro ⟨db', h⟩
  rw [hrun] at h
  simp at h

/-- C3, as the code has it: a create request whose code is shorter than 3
characters (UTF-16 code units, the `length` of the string) fails with 400
when the supplied admin key is the configured one and with 401 when it is
not; the store is unchanged. -/
theorem create_short_code (store : StoreApi) (toUpperCase : String → String)
    (envAdminKey : Option String) (now : Nat) (db : Option Ledger) (body : JsVal) (s : String)
    (hcode : getProp body "code" = .str s) (hlen : jsLength s < 3) :
    createHandler store toUpperCase envAdminKey now db body =
      (some (if strictNeStr (getProp body "adminKey") (ADMIN_KEY envAdminKey)
          then .json 401 [("error", .str "Unauthorized")]
          else .json 400 [("error", .str "Code must be at least 3 characters")]), db) := by
  obtain ⟨fs, rfl⟩ := body_obj_of_getProp hcode
  cases hkey : strictNeStr (getProp (.obj fs) "adminKey") (ADMIN_KEY envAdminKey)
  · simp [createHandler, hkey, hcode, codeTooShort_str, hlen]
  · simp [createHandler, hkey]

/-- The request `shortCodeRightKey`: an instance of C3 as the code has it. -/
theorem create_short_code_witness :
    getProp shortCodeRightKey "code" = .str "ab" ∧ jsLength "ab" < 3
    ∧ createHandler sampleStore asciiUpper none 7 (some sampleLedger) shortCodeRightKey =
      (some (if strictNeStr (getProp shortCodeRightKey "adminKey") (ADMIN_KEY none)
          then .json 401 [("error", .str "Unauthorized")]
          else .json 400 [("error", .str "Code must be at least 3 characters")]),
       some sampleLedger) :=
  ⟨rfl, by decide,
   create_short_code sampleStore asciiUpper none 7 (some sampleLedger) shortCodeRightKey "ab" rfl
     (by decide)⟩

/-- C3 as stated fails: the create request `shortCodeWrongKey`, for the
two-letter code `ab` with an admin key that does not match, is answered with
status 401, not 400. -/
theorem create_short_code_counterexample :
    getProp shortCodeWrongKey "code" = .str "ab" ∧ jsLength "ab" < 3
    ∧ (createHandler sampleStore asciiUpper none 7 (some sampleLedger) shortCodeWrongKey).1.map
        Response.status = some 401
    ∧ (createHandler sampleStore asciiUpper none 7 (some sampleLedger) shortCodeWrongKey).1.map
        Response.status ≠ some 400 := by
  have hrun :
      (createHandler sampleStore asciiUpper none 7 (some sampleLedger) shortCodeWrongKey).1.map
        Response.status = some 401 := rfl
  refine ⟨rfl, by decide, hrun, ?_⟩
  rw [hrun]
  decide

/-- C4: when a webhook secret is configured and the authorization header is
not exactly `Bearer <secret>`, the handler answers 401 Unauthorized and the
store is unchanged, whatever the payload and the store. -/
theorem webhook_unauthorized (store : StoreApi) (toUpperCase : String → String)
    (secret : String) (now : Nat) (db : Option Ledger) (req : WebhookRequest)
    (hsecret : secret ≠ "") (hauth : req.authorization ≠ some ("Bearer " ++ secret)) :
    webhookHandler store toUpperCase secret now db req
      = some (.json 401 [("error", .str "Unauthorized")], db) := by
  simp [webhookHandler, hsecret, hauth]

/-- A delivery with a wrong bearer token: an instance of C4. -/
theorem webhook_unauthorized_witness :
    ("s3cret" : String) ≠ ""
    ∧ (some "Bearer wrong" : Option String) ≠ some ("Bearer " ++ "s3cret")
    ∧ webhookHandler sampleStore asciiUpper "s3cret" 7 (some sampleLedger)
        ⟨some "Bearer wrong", sampleEvent⟩
        = some (.json 401 [("error", .str "Unauthorized")], some sampleLedger) :=
  ⟨by decide, by decide,
   webhook_unauthorized sampleStore asciiUpper "s3cret" 7 (some sampleLedger)
     ⟨some "Bearer wrong", sampleEvent⟩ (by decide) (by decide)⟩

/-- C5, as the code has it: a create request with the configured admin key
and a code of at least 3 characters whose uppercased form is a document id
without an entry, with a store that takes the write, succeeds and stores,
under that id, an entry with `total_signups`, `total_purchases` and
`total_revenue` all `0`, both `last_used_at` and `last_purchase_at` null, and
`commission_rate` the rate given in the request when that is a number other
than `0`, and `0.20` when none or the rate `0` was given. -/
theorem create_new_code (store : StoreApi) (toUpperCase : String → String)
    (envAdminKey : Option String) (now : Nat) (l : Ledger) (body : JsVal) (s id : String)
    (hkey : getProp body "adminKey" = .str (ADMIN_KEY envAdminKey))
    (hcode : getProp body "code" = .str s) (hlen : 3 ≤ jsLength s)
    (hid : store.docId (toUpperCase s) = some id)
    (hnew : l.docs id = none)
    (haccepts : store.accepts
      (createdEntry (toUpperCase s) (getProp body "commissionRate") now) = true) :
    ∃ (l' : Ledger) (entry : Fields),
      createHandler store toUpperCase envAdminKey now (some l) body =
        (some (.json 200 [("success", .bool true), ("code", .str (toUpperCase s))]), some l')
      ∧ l'.docs id = some entry
      ∧ lookupField entry "code" = .str (toUpperCase s)
      ∧ lookupField entry "total_signups" = .num F64.zero
      ∧ lookupField entry "total_purchases" = .num F64.zero
      ∧ lookupField entry "total_revenue" = .num F64.zero
      ∧ lookupField entry "last_used_at" = .null
      ∧ lookupField entry "last_purchase_at" = .null
      ∧ (∀ q : F64, q.isTruthy = true → getProp body "commissionRate" = .num q →
          lookupField entry "commission_rate" = .num q)
      ∧ (truthy (getProp body "commissionRate") = false →
          lookupField entry "commission_rate" = .num F64.pointTwo) := by
  obtain ⟨fs, rfl⟩ := body_obj_of_getProp hcode
  have hlt : ¬ jsLength s < 3 := Nat.not_lt.mpr hlen
  refine ⟨l.setDoc id (createdEntry (toUpperCase s) (getProp (.obj fs) "commissionRate") now),
    createdEntry (toUpperCase s) (getProp (.obj fs) "commissionRate") now,
    ?_, ?_, ?_, ?_, ?_, ?_, ?_, ?_, ?_, ?_⟩
  · simp [createHandler, hkey, strictNeStr, hcode, codeTooShort_str, hlt, hid, hnew, haccepts]
  · simp [Ledger.setDoc]
  · simp [createdEntry, lookupField]
  · simp [createdEntry, lookupField]
  · simp [createdEntry, lookupField]
  · simp [createdEntry, lookupField]
  · simp [createdEntry, lookupField]
  · simp [createdEntry, lookupField]
  · intro q hq hrate
    simp [createdEntry, lookupField, hrate, jsOr, truthy, hq]
  · intro hrate
    simp [createdEntry, lookupField, jsOr, hrate]

/-- The request for `abc` at rate `0.35` on `sampleLedger`: an instance of C5
as the code has it. -/
theorem create_new_code_witness :
    getProp (createRequest "abc" "gainsai2024admin" (.num (F64.ofRatio 35 100))) "adminKey"
      = .str (ADMIN_KEY none)
    ∧ 3 ≤ jsLength "abc"
    ∧ sampleStore.docId (asciiUpper "abc") = some "ABC"
    ∧ sampleLedger.docs "ABC" = none
    ∧ ∃ (l' : Ledger) (entry : Fields),
      createHandler sampleStore asciiUpper none 7 (some sampleLedger)
          (createRequest "abc" "gainsai2024admin" (.num (F64.ofRatio 35 100))) =
        (some (.json 200 [("success", .bool true), ("code", .str (asciiUpper "abc"))]), some l')
      ∧ l'.docs "ABC" = some entry
      ∧ lookupField entry "code" = .str (asciiUpper "abc")
      ∧ lookupField entry "total_signups" = .num F64.zero
      ∧ lookupField entry "total_purchases" = .num F64.zero
      ∧ lookupField entry "total_revenue" = .num F64.zero
      ∧ lookupField entry "last_used_at" = .null
      ∧ lookupField entry "last_purchase_at" = .null
      ∧ (∀ q : F64, q.isTruthy = true →
          getProp (createRequest "abc" "gainsai2024admin" (.num (F64.ofRatio 35 100)))
            "commissionRate" = .num q →
          lookupField entry "commission_rate" = .num q)
      ∧ (truthy (getProp (createRequest "abc" "gainsai2024admin" (.num (F64.ofRatio 35 100)))
            "commissionRate") = false →
          lookupField entry "commission_rate" = .num F64.pointTwo) :=
  ⟨rfl, by decide, rfl, rfl,
   create_new_code sampleStore asciiUpper none 7 sampleLedger
     (createRequest "abc" "gainsai2024admin" (.num (F64.ofRatio 35 100))) "abc" "ABC"
     rfl rfl (by decide) rfl rfl rfl⟩

/-- C5 as stated fails. The create request for `abc` that gives the
commission rate `0` stores `commission_rate = 0.20`; and the create request
for the three-character code `a/b`, with the right key and no such entry, is
answered 500 and stores nothing, the client refusing the path `A/B`. -/
theorem create_new_code_counterexample :
    (∃ (l' : Ledger) (entry : Fields),
      createHandler sampleStore asciiUpper none 7 (some emptyLedger)
          (createRequest "abc" "gainsai2024admin" (.num F64.zero)) =
        (some (.json 200 [("success", .bool true), ("code", .str "ABC")]), some l')
      ∧ l'.docs "ABC" = some entry
      ∧ lookupField entry "commission_rate" = .num (.fin false 3602879701896397 (-54))
      ∧ lookupField entry "commission_rate"
          ≠ getProp (createRequest "abc" "gainsai2024admin" (.num F64.zero)) "commissionRate")
    ∧ 3 ≤ jsLength "a/b"
    ∧ clientDocId (asciiUpper "a/b") = none
    ∧ createHandler sampleStore asciiUpper none 7 (some emptyLedger)
          (createRequest "a/b" "gainsai2024admin" (.num (F64.ofRatio 35 100)))
        = (some .internalError, some emptyLedger) := by
  refine ⟨⟨emptyLedger.setDoc "ABC" (createdEntry "ABC" (.num F64.zero) 7),
      createdEntry "ABC" (.num F64.zero) 7, rfl, rfl, rfl, ?_⟩, by decide, rfl, rfl⟩
  simp [createdEntry, createRequest, lookupField, getProp, jsOr, truthy, F64.isTruthy,
    F64.zero, F64.pointTwo_eq]

/-- C6, as the code has it: for a code, in any letter case, whose uppercased
form has a ledger entry whose timestamps are store timestamps, null or
missing, and whose `total_revenue` and `commission_rate` are numbers `a` and
`b` once a missing or zero one is read as `0`, respectively `0.20`, the
statistics handler answers 200 with the stored counters (`0` for a missing
one) and with `total_commission` the double-precision product `a * b`. -/
theorem stats_known_code (store : StoreApi) (toUpperCase : String → String) (l : Ledger)
    (code id : String) (data : Fields) (a b : F64)
    (hid : store.docId (toUpperCase code) = some id)
    (hdoc : l.docs id = some data)
    (hr : jsOr (lookupField data "total_revenue") (.num F64.zero) = .num a)
    (hc : jsOr (lookupField data "commission_rate") (.num F64.pointTwo) = .num b)
    (hcreated : (toDate (lookupField data "created_at")).isSome = true)
    (hused : (toDate (lookupField data "last_used_at")).isSome = true)
    (hpurchase : (toDate (lookupField data "last_purchase_at")).isSome = true) :
    ∃ body : Fields,
      statsHandler store toUpperCase (some l) code = some (.json 200 body)
      ∧ lookupField body "total_signups"
          = jsOr (lookupField data "total_signups") (.num F64.zero)
      ∧ lookupField body "total_purchases"
          = jsOr (lookupField data "total_purchases") (.num F64.zero)
      ∧ lookupField body "total_revenue" = .num a
      ∧ lookupField body "total_commission" = .num (a.mul b)
      ∧ lookupField body "commission_rate" = .num b
      ∧ (∀ x : F64, x.isTruthy = true → lookupField data "total_signups" = .num x →
          lookupField body "total_signups" = .num x)
      ∧ (∀ x : F64, x.isTruthy = true → lookupField data "total_purchases" = .num x →
          lookupField body "total_purchases" = .num x) := by
  obtain ⟨createdAt, h1⟩ := Option.isSome_iff_exists.mp hcreated
  obtain ⟨lastUsedAt, h2⟩ := Option.isSome_iff_exists.mp hused
  obtain ⟨lastPurchaseAt, h3⟩ := Option.isSome_iff_exists.mp hpurchase
  refine ⟨[("code", lookupField data "code"),
      ("total_signups", jsOr (lookupField data "total_signups") (.num F64.zero)),
      ("total_purchases", jsOr (lookupField data "total_purchases") (.num F64.zero)),
      ("total_revenue", .num a),
      ("total_commission", .num (a.mul b)),
      ("commission_rate", .num b),
      ("created_at", createdAt),
      ("last_used_at", lastUsedAt),
      ("last_purchase_at", lastPurchaseAt)], ?_, ?_, ?_, ?_, ?_, ?_, ?_, ?_⟩
  · simp only [statsHandler, hid, hdoc, hr, hc, jsMul, h1, h2, h3]
  · simp [lookupField]
  · simp [lookupField]
  · simp [lookupField]
  · simp [lookupField]
  · simp [lookupField]
  · intro x hx hs
    simp [lookupField, hs, jsOr, truthy, hx]
  · intro x hx hs
    simp [lookupField, hs, jsOr, truthy, hx]

/-- The statistics of `SUMMER10` after one purchase of `9.99` at rate `0.20`:
an instance of C6 as the code has it. -/
theorem stats_known_code_witness :
    sampleStore.docId (asciiUpper "Summer10") = some "SUMMER10"
    ∧ purchasedLedger.docs "SUMMER10" = some purchasedEntry
    ∧ ∃ body : Fields,
      statsHandler sampleStore asciiUpper (some purchasedLedger) "Summer10"
        = some (.json 200 body)
      ∧ lookupField body "total_signups"
          = jsOr (lookupField purchasedEntry "total_signups") (.num F64.zero)
      ∧ lookupField body "total_purchases"
          = jsOr (lookupField purchasedEntry "total_purchases") (.num F64.zero)
      ∧ lookupField body "total_revenue" = .num (F64.ofRatio 999 100)
      ∧ lookupField body "total_commission" = .num ((F64.ofRatio 999 100).mul F64.pointTwo)
      ∧ lookupField body "commission_rate" = .num F64.pointTwo
      ∧ (∀ x : F64, x.isTruthy = true → lookupField purchasedEntry "total_signups" = .num x →
          lookupField body "total_signups" = .num x)
      ∧ (∀ x : F64, x.isTruthy = true → lookupField purchasedEntry "total_purchases" = .num x →
          lookupField body "total_purchases" = .num x) :=
  ⟨rfl, rfl,
   stats_known_code sampleStore asciiUpper purchasedLedger "Summer10" "SUMMER10" purchasedEntry
     (F64.ofRatio 999 100) F64.pointTwo rfl rfl rfl rfl rfl rfl rfl⟩

/-- C6 as stated fails. The code `summer10` is created at rate `0.20` and one
renewal of `9.99` is delivered; the statistics then report revenue `9.99`,
rate `0.20` and `total_commission = 1.9980000000000002`, which is neither
`1.998` nor the product of the stored revenue and the stored rate. -/
theorem stats_known_code_counterexample :
    ∃ (l1 l2 : Ledger) (body : Fields),
      createHandler sampleStore asciiUpper none 1 (some emptyLedger)
          (createRequest "summer10" "gainsai2024admin" (.num (F64.ofRatio 20 100)))
        = (some (.json 200 [("success", .bool true), ("code", .str "SUMMER10")]), some l1)
      ∧ webhookHandler sampleStore asciiUpper "" 2 (some l1) ⟨none, sampleEvent⟩
        = some (ack true, some l2)
      ∧ statsHandler sampleStore asciiUpper (some l2) "SUMMER10" = some (.json 200 body)
      ∧ lookupField body "total_revenue" = .num (F64.ofRatio 999 100)
      ∧ lookupField body "commission_rate" = .num (F64.ofRatio 20 100)
      ∧ lookupField body "total_commission" = .num (.fin false 2249548013871563 (-50))
      ∧ (F64.fin false 2249548013871563 (-50)).toRat ≠ 1998 / 1000
      ∧ (F64.fin false 2249548013871563 (-50)).toRat
          ≠ (F64.ofRatio 999 100).toRat * (F64.ofRatio 20 100).toRat
      ∧ F64.fin false 2249548013871563 (-50) ≠ F64.ofRatio 1998 1000 := by
  refine ⟨emptyLedger.setDoc "SUMMER10"
      (createdEntry "SUMMER10" (.num (F64.ofRatio 20 100)) 1),
    ((emptyLedger.setDoc "SUMMER10"
        (createdEntry "SUMMER10" (.num (F64.ofRatio 20 100)) 1)).setDoc "SUMMER10"
      (updateFields (createdEntry "SUMMER10" (.num (F64.ofRatio 20 100)) 1)
        (counterUpdate (.num (F64.zero.add F64.one))
          (.num (F64.zero.add (F64.ofRatio 999 100))) 2))).addPurchase "SUMMER10"
      (purchaseRecord (.str "") (.str "gains_monthly") (.num (F64.ofRatio 999 100))
        (.num ((F64.ofRatio 999 100).mul F64.pointTwo)) (.str "RENEWAL") 2),
    _,
    rfl, rfl, rfl, rfl, rfl, rfl, ?_, ?_, by decide⟩
  · norm_num [F64.toRat]
  · rw [F64.ofRatio_price, show F64.ofRatio 20 100 = .fin false 3602879701896397 (-54) from rfl]
    norm_num [F64.toRat]

/-- C7, as the code has it: if every entry has `total_purchases >= 0` and
`total_revenue >= 0` before a webhook delivery whose price is a number (`0`
when absent), the handler answers and every entry has `total_purchases >= 0`
afterwards, and `total_revenue >= 0` too when the price is `>= 0`; and every
entry has both after every admin create request. -/
theorem counters_nonneg_preserved (store : StoreApi) (toUpperCase : String → String)
    (secret : String) (envAdminKey : Option String) (now : Nat) (db : Option Ledger)
    (hinv : LedgerInv db) :
    (∀ (req : WebhookRequest) (P : F64),
      jsOr (getProp (getProp req.body "event") "price") (.num F64.zero) = .num P →
      ∃ resp db', webhookHandler store toUpperCase secret now db req = some (resp, db')
        ∧ PurchasesInv db' ∧ (P.isNonneg = true → LedgerInv db'))
    ∧ (∀ body : JsVal, LedgerInv (createHandler store toUpperCase envAdminKey now db body).2) :=
  ⟨fun req P hprice => webhookHandler_inv store toUpperCase secret now db req P hinv hprice,
   fun body => createHandler_inv store toUpperCase envAdminKey now db body hinv⟩

/-- A delivery and a create request on `sampleLedger`: an instance of C7 as
the code has it. -/
theorem counters_nonneg_preserved_witness :
    LedgerInv (some sampleLedger)
    ∧ (F64.ofRatio 999 100).isNonneg = true
    ∧ (∃ resp db',
        webhookHandler sampleStore asciiUpper "" 7 (some sampleLedger) ⟨none, sampleEvent⟩
          = some (resp, db') ∧ PurchasesInv db'
        ∧ ((F64.ofRatio 999 100).isNonneg = true → LedgerInv db'))
    ∧ LedgerInv (createHandler sampleStore asciiUpper none 7 (some sampleLedger)
        (createRequest "abc" "gainsai2024admin" (.num (F64.ofRatio 35 100)))).2 :=
  ⟨sampleLedger_inv, rfl,
    (counters_nonneg_preserved sampleStore asciiUpper "" none 7 (some sampleLedger)
      sampleLedger_inv).1 ⟨none, sampleEvent⟩ (F64.ofRatio 999 100) rfl,
    (counters_nonneg_preserved sampleStore asciiUpper "" none 7 (some sampleLedger)
      sampleLedger_inv).2 _⟩

/-- C7 as stated fails: the store `sampleLedger` satisfies the invariant,
and after the delivery of a renewal of price `-5` for the new code `abc` the
entry `ABC` has `total_revenue = -5`. -/
theorem counters_nonneg_counterexample :
    LedgerInv (some sampleLedger)
    ∧ ∃ l' entry,
        webhookHandler sampleStore asciiUpper "" 7 (some sampleLedger)
          ⟨none, purchaseEvent "RENEWAL" (.num (F64.ofRatio (-5) 1)) (.str "gains_monthly") "abc"⟩
          = some (ack true, some l')
        ∧ l'.docs "ABC" = some entry
        ∧ lookupField entry "total_revenue" = .num (.fin true 5 0)
        ∧ (F64.fin true 5 0).toRat = -5
        ∧ ¬ LedgerInv (some l') := by
  refine ⟨sampleLedger_inv,
    (sampleLedger.setDoc "ABC" (newEntry "ABC" (.num (F64.ofRatio (-5) 1)) 7)).addPurchase "ABC"
      (purchaseRecord (.str "") (.str "gains_monthly") (.num (F64.ofRatio (-5) 1))
        (.num ((F64.ofRatio (-5) 1).mul F64.pointTwo)) (.str "RENEWAL") 7),
    newEntry "ABC" (.num (F64.ofRatio (-5) 1)) 7, rfl, rfl, rfl, ?_, ?_⟩
  · norm_num [F64.toRat]
  · intro h
    have hbad := h _ rfl "ABC" (newEntry "ABC" (.num (F64.ofRatio (-5) 1)) 7) rfl
    revert hbad
    decide

/-- C8, as the code has it: for a successful reply whose text `T` is not
empty and whose citation list is `C`, the returned content is `T` unmodified
when `C` is absent or empty, and otherwise `T`, a blank line, the line
`---SOURCES---`, each citation of `C` in order on its own line, then
`---END_SOURCES---`. -/
theorem chat_content (T : String) (C : Option (List String)) (hT : T ≠ "") :
    (C.getD [] = [] → perplexityContent (some T) C = T)
    ∧ (C.getD [] ≠ [] → perplexityContent (some T) C = withSources T (C.getD [])) := by
  constructor
  · intro h
    simp [perplexityContent, hT, h]
  · intro h
    have hpos : 0 < (C.getD []).length := List.length_pos.mpr h
    simp only [perplexityContent, hT, ne_eq, not_false_eq_true, if_true, gt_iff_lt, hpos,
      citations_foldl, withSources]
    simp only [String.append_assoc]
    rfl

/-- A reply without and with citations: an instance of C8 as the code has it. -/
theorem chat_content_witness :
    ("Eat more protein." : String) ≠ ""
    ∧ perplexityContent (some "Eat more protein.") (some []) = "Eat more protein."
    ∧ perplexityContent (some "Eat more protein.") (some ["https://a.example", "https://b.example"])
        = "Eat more protein.\n\n---SOURCES---\nhttps://a.example\nhttps://b.example\n---END_SOURCES---" :=
  ⟨by decide,
   (chat_content "Eat more protein." (some []) (by decide)).1 rfl,
   ((chat_content "Eat more protein." (some ["https://a.example", "https://b.example"])
      (by decide)).2 (by simp)).trans (by decide)⟩

/-- C8 as stated fails: for the empty reply text and no citations the
returned content is `No response`, not the reply text. -/
theorem chat_content_counterexample :
    perplexityContent (some "") none = "No response"
    ∧ perplexityContent (some "") none ≠ "" := by
  decide

/-- C10: the referral code the webhook handler extracts is the value at the
first of the six probed locations, in their priority order, that holds a
non-empty value, and the empty string when none does; a missing map or
attribute holds nothing. On the payload that holds `c1` to `c6` at the six
locations the code is `c1`, and `c2`, ..., `c6` as the locations before are
emptied one by one, and the empty string when all are. -/
theorem extractCode_first_nonempty (ev : JsVal) :
    extractCode ev = firstNonEmpty (probedLocations ev)
    ∧ extractCode (probeEvent 1) = .str "c1"
    ∧ extractCode (probeEvent 2) = .str "c2"
    ∧ extractCode (probeEvent 3) = .str "c3"
    ∧ extractCode (probeEvent 4) = .str "c4"
    ∧ extractCode (probeEvent 5) = .str "c5"
    ∧ extractCode (probeEvent 6) = .str "c6"
    ∧ extractCode (probeEvent 7) = .str ""
    ∧ extractCode attributesOnlyEvent = .str "c6"
    ∧ extractCode emptyFirstEvent = .str "c2"
    ∧ extractCode .undefined = .str "" := by
  refine ⟨?_, rfl, rfl, rfl, rfl, rfl, rfl, rfl, rfl, rfl, rfl⟩
  simp only [extractCode, probedLocations, getProp_jsOr_empty, jsOr_assoc, firstNonEmpty_cons,
    getProp_chain_eq_locationValue]
  rfl

end GainsAI
